import Mathlib

/-!
Verification of the goose extensions documentation pipeline.

The development shallowly embeds the catalog ingestion and page generation
pipeline of the `docusaurus-plugin-extensions` plugin and of the runtime
detail-page resolver:

* `fetchMCPServers` (utils/mcp-servers.ts): reads `static/servers.json`,
  parses it, and returns the parsed data unchanged, rethrowing the
  underlying error on a read or parse failure.
* `contentLoadedData` / `contentLoadedRoutes` (index.ts, `contentLoaded`):
  one data file and one route per extension, keyed by `id`.
* `postBuildWrites` (index.ts, `postBuild`): writes one `<id>.json` file
  per extension into the `extensions-data` output directory, re-fetching
  the catalog first (`runBuild` records both reads).
* `loadServerPath` / `loadServerQuery` (extension-detail.tsx, both
  variants of `DetailPage.loadServer`): resolve an id extracted from the
  navigation path or the `id` query parameter against the fetched
  collection with `servers.find`.
* `stepDetailPage` / `runDetailPage`: the event-level behaviour of the
  `DetailPage` effect across navigations and asynchronous fetch
  completions; completions are applied unconditionally, as in the source.

Machine-level JSON values are modelled by the `Json` inductive; the typed
descriptor is `MCPServer` (types/server, spec section 3). File systems are
modelled as `ExportDir`: a contents map plus the list of file names in
creation order.
-/

namespace GooseExtensions

/-- Environment variable entry of a descriptor: name, description and a
required flag (spec section 3, rendered by the detail page). -/
structure EnvVar where
  name : String
  description : String
  required : Bool
deriving DecidableEq

/-- The `MCPServer` descriptor (types/server; the plugin `Extension`
interface plus the optional fields consumed by the detail pages). The
optional collections are held normalized (`Option`, `List`). -/
structure MCPServer where
  id : String
  name : String
  description : String
  command : Option String
  is_builtin : Bool
  link : String
  githubStars : Nat
  installation_notes : Option String
  environmentVariables : List EnvVar
deriving DecidableEq

/-! ### Runtime resolver (`DetailPage.loadServer`) -/

/-- Component state of `DetailPage`: the `server`, `loading` and `error`
`useState` hooks. -/
structure DetailState where
  server : Option MCPServer
  loading : Bool
  error : Option String
deriving DecidableEq

/-- Initial hook values: `useState<MCPServer|null>(null)`,
`useState(true)`, `useState<string|null>(null)`. -/
def initialDetailState : DetailState :=
  { server := none, loading := true, error := none }

/-- Outcome of the awaited runtime `fetchMCPServers()` call: the promise
either resolves with the fetched collection or rejects. -/
inductive FetchOutcome where
  | ok (servers : List MCPServer)
  | failed
deriving DecidableEq

/-- The synchronous head of `loadServer`: `setLoading(true)` and
`setError(null)` run before the fetch is awaited. -/
def startLoad (st : DetailState) : DetailState :=
  { st with loading := true, error := none }

/-- Embedding of the JS `pathname.split('/')` over the character list:
split at every slash, keeping empty groups, as `String.prototype.split`
does (the empty string yields one empty group). -/
def splitSlash : List Char → List (List Char)
  | [] => [[]]
  | c :: rest =>
      let groups := splitSlash rest
      if c = '/' then [] :: groups
      else
        match groups with
        | g :: gs => (c :: g) :: gs
        | [] => [[c]]

/-- The id extracted by the path variant: `location.pathname.split('/')`
and its last element (`pathParts[pathParts.length - 1]`). -/
def lastPathSegment (pathname : String) : String :=
  String.mk (((splitSlash pathname.data).getLast?).getD [])

/-- Continuation of the path variant of `loadServer` after the awaited
fetch: on success, look the extracted id up with
`servers.find((s) => s.id === id)`; set the server when found, otherwise
the "Server not found" error; on rejection the catch sets
"Failed to load server details"; finally clears `loading`. -/
def applyPathCompletion (fetched : FetchOutcome) (pathname : String)
    (st : DetailState) : DetailState :=
  match fetched with
  | .failed => { st with error := some "Failed to load server details", loading := false }
  | .ok servers =>
      match servers.find? (fun s => s.id == lastPathSegment pathname) with
      | some s => { st with server := some s, loading := false }
      | none => { st with error := some "Server not found", loading := false }

/-- One full synchronous-fetch run of the path variant of `loadServer`. -/
def loadServerPath (fetched : FetchOutcome) (pathname : String)
    (st : DetailState) : DetailState :=
  applyPathCompletion fetched pathname (startLoad st)

/-- Continuation of the query variant of `loadServer` after the awaited
fetch: reads `params.get('id')`; a missing or empty id (JS falsiness)
yields "No extension ID provided"; otherwise the same `servers.find`
lookup, with "Extension not found" and
"Failed to load extension details" as the error messages. -/
def applyQueryCompletion (fetched : FetchOutcome) (idParam : Option String)
    (st : DetailState) : DetailState :=
  match fetched with
  | .failed => { st with error := some "Failed to load extension details", loading := false }
  | .ok servers =>
      match idParam with
      | none => { st with error := some "No extension ID provided", loading := false }
      | some i =>
          if i = "" then
            { st with error := some "No extension ID provided", loading := false }
          else
            match servers.find? (fun s => s.id == i) with
            | some s => { st with server := some s, loading := false }
            | none => { st with error := some "Extension not found", loading := false }

/-- One full synchronous-fetch run of the query variant of `loadServer`. -/
def loadServerQuery (fetched : FetchOutcome) (idParam : Option String)
    (st : DetailState) : DetailState :=
  applyQueryCompletion fetched idParam (startLoad st)

/-! ### Build-time fetch (`utils/mcp-servers.ts`) -/

/-- JSON values, the result of `JSON.parse` on the catalog file. Numbers
are restricted to the integers actually occurring in the catalog. -/
inductive Json where
  | null
  | bool (b : Bool)
  | num (n : Int)
  | str (s : String)
  | arr (elems : List Json)
  | obj (fields : List (String × Json))

/-- State of the pinned local snapshot `static/servers.json`: the file may
be absent (`fs.readFileSync` throws), present but unparseable
(`JSON.parse` throws), or present and parsed to a `Json` value. -/
inductive LocalSnapshot where
  | absent
  | notJson (raw : String)
  | parsed (j : Json)

/-- Failure causes of the build-time fetch: the rethrown read error or the
rethrown parse error. The type has no schema-violation constructor, since
`fetchMCPServers` performs no per-descriptor validation. -/
inductive FetchError where
  | fileReadError
  | jsonParseError
deriving DecidableEq

/-- Embedding of `fetchMCPServers` (utils/mcp-servers.ts): read
`static/servers.json`, `JSON.parse` it, and return the parsed data
unchanged; on a read or parse failure the caught error is rethrown. No
field of any descriptor is inspected and no entry is dropped. -/
def fetchMCPServers : LocalSnapshot → Except FetchError Json
  | .absent => .error .fileReadError
  | .notJson _ => .error .jsonParseError
  | .parsed j => .ok j

/-- Modelled from the spec: the Catalog Fetcher described in section 4.1,
which prefers the pinned local snapshot when present and otherwise falls
back to fetching the canonical remote endpoint; `remote` is the outcome of
that remote request. This definition follows the wording of the spec, for
comparison with `fetchMCPServers`, which is the code. -/
def specCatalogFetch (snap : LocalSnapshot) (remote : Except FetchError Json) :
    Except FetchError Json :=
  match snap with
  | .parsed j => .ok j
  | .notJson _ => .error .jsonParseError
  | .absent => remote

/-! ### Serialization (`JSON.stringify` of a typed descriptor) -/

/-- Escaping applied by `JSON.stringify` to the characters that occur
escaped in string values (quote and backslash). -/
def jsonEscape (s : String) : String :=
  String.mk (s.data.foldr
    (fun c acc =>
      if c = '\\' then '\\' :: '\\' :: acc
      else if c = '"' then '\\' :: '"' :: acc
      else c :: acc) [])

/-- A JSON string literal. -/
def jsonStrLit (s : String) : String :=
  "\"" ++ jsonEscape s ++ "\""

/-- Serialization of one environment variable entry. -/
def serializeEnvVar (v : EnvVar) : String :=
  "\x7b\"name\":" ++ jsonStrLit v.name ++
    ",\"description\":" ++ jsonStrLit v.description ++
    ",\"required\":" ++ (if v.required then "true" else "false") ++ "\x7d"

/-- Embedding of `JSON.stringify(extension)`: one deterministic byte
string per descriptor. Key order follows the descriptor's field order;
absent optional scalar fields are omitted, as `JSON.stringify` omits
`undefined` properties. -/
def serializeServer (e : MCPServer) : String :=
  "\x7b\"id\":" ++ jsonStrLit e.id ++
    ",\"name\":" ++ jsonStrLit e.name ++
    ",\"description\":" ++ jsonStrLit e.description ++
    (match e.command with
      | some c => ",\"command\":" ++ jsonStrLit c
      | none => "") ++
    ",\"is_builtin\":" ++ (if e.is_builtin then "true" else "false") ++
    ",\"link\":" ++ jsonStrLit e.link ++
    ",\"githubStars\":" ++ toString e.githubStars ++
    (match e.installation_notes with
      | some n => ",\"installation_notes\":" ++ jsonStrLit n
      | none => "") ++
    ",\"environmentVariables\":[" ++
      String.intercalate "," (e.environmentVariables.map serializeEnvVar) ++
    "]\x7d"

/-! ### Route generation (`contentLoaded`) -/

/-- A registered route, as passed to `addRoute`: the `modules.extension`
entry is flattened to the name of the data file created for it. -/
structure Route where
  path : String
  component : String
  extensionModule : String
  exact : Bool
deriving DecidableEq

/-- Name of the per-extension data file created by `createData`. -/
def extensionDataFileName (e : MCPServer) : String :=
  "extension-" ++ e.id ++ ".json"

/-- Path of the per-extension detail route. -/
def detailRoutePath (e : MCPServer) : String :=
  "/extensions/detail/" ++ e.id

/-- The route registered for one extension by `contentLoaded`. -/
def detailRoute (e : MCPServer) : Route :=
  { path := detailRoutePath e
    component := "@site/src/components/extension-detail.tsx"
    extensionModule := extensionDataFileName e
    exact := true }

/-- Data files created by `contentLoaded`: for each extension, a JSON file
named after its id holding its serialization. -/
def contentLoadedData (extensions : List MCPServer) : List (String × String) :=
  extensions.map (fun e => (extensionDataFileName e, serializeServer e))

/-- Routes registered by `contentLoaded`: one detail route per extension,
in catalog order; `Promise.all` keeps every registration. -/
def contentLoadedRoutes (extensions : List MCPServer) : List Route :=
  extensions.map detailRoute

/-- Modelled from the spec: the listing route over the whole collection
(spec sections 4.3 and 6). The listing page is a file-based page of the
documentation site that is not among the files under verification; only
its existence and path are modelled. -/
def listingRoute : Route :=
  { path := "/extensions"
    component := "@site/src/pages/extensions"
    extensionModule := ""
    exact := true }

/-- All routes of one build: the detail routes registered by
`contentLoaded` plus the listing route. -/
def allBuildRoutes (extensions : List MCPServer) : List Route :=
  listingRoute :: contentLoadedRoutes extensions

/-! ### Static export (`postBuild`) -/

/-- The `extensions-data` output directory: a contents map from file name
to file bytes, together with the list of present file names in creation
order (no name occurs twice in `fileNames` by construction). -/
structure ExportDir where
  contents : String → Option String
  fileNames : List String

/-- The freshly created `extensions-data` directory. -/
def emptyExportDir : ExportDir :=
  { contents := fun _ => none, fileNames := [] }

/-- Embedding of `fs.writeFileSync`: create the file or overwrite its
contents in place. -/
def writeFileTo (d : ExportDir) (p c : String) : ExportDir :=
  { contents := fun q => if q = p then some c else d.contents q
    fileNames := if p ∈ d.fileNames then d.fileNames else d.fileNames ++ [p] }

/-- Name of the exported static file for one extension. -/
def exportFileName (e : MCPServer) : String :=
  e.id ++ ".json"

/-- Write sequence of `postBuild`: `extensions.forEach` writes
`<id>.json` with `JSON.stringify(extension)` for each extension in catalog
order. -/
def postBuildWrites (extensions : List MCPServer) (d : ExportDir) : ExportDir :=
  extensions.foldl (fun acc e => writeFileTo acc (exportFileName e) (serializeServer e)) d

/-- Helper for reasoning about `postBuildWrites`: the serialization of
the last extension in the list whose export file name is `q`, if any
(the last `writeFileSync` to a path wins). -/
def lastExportedContent : List MCPServer → String → Option String
  | [], _ => none
  | e :: rest, q =>
      match lastExportedContent rest q with
      | some c => some c
      | none => if exportFileName e = q then some (serializeServer e) else none

/-! ### The whole plugin lifecycle (`runBuild`) -/

/-- Result of one Docusaurus build of the plugin: the number of times the
catalog file was read, the created data files, the registered routes and
the exported directory. -/
structure BuildResult where
  fetchCount : Nat
  dataFiles : List (String × String)
  routes : List Route
  exported : ExportDir

/-- One read of the catalog file. `fileAtTime k` is the typed content of
`static/servers.json` at the time of the k-th read (the file can change
between reads); the returned counter records that one more read happened. -/
def trackedFetch (fileAtTime : Nat → List MCPServer) (k : Nat) :
    List MCPServer × Nat :=
  (fileAtTime k, k + 1)

/-- Embedding of the plugin lifecycle (index.ts): `loadContent` fetches
the catalog and hands it to `contentLoaded`, which creates the data files
and registers the routes; `postBuild` then calls `fetchMCPServers()` a
second time and exports that second read. -/
def runBuild (fileAtTime : Nat → List MCPServer) : BuildResult :=
  let fetched := trackedFetch fileAtTime 0
  let dataFiles := contentLoadedData fetched.1
  let routes := contentLoadedRoutes fetched.1
  let refetched := trackedFetch fileAtTime fetched.2
  { fetchCount := refetched.2
    dataFiles := dataFiles
    routes := routes
    exported := postBuildWrites refetched.1 emptyExportDir }

/-! ### Navigation and asynchronous completion (`DetailPage` effect) -/

/-- State of the detail page across navigations: the index of the latest
navigation whose effect has run, and the displayed hook state. -/
structure RuntimeState where
  currentNav : Nat
  display : DetailState
deriving DecidableEq

/-- Initial runtime state before any navigation. -/
def initialRuntimeState : RuntimeState :=
  { currentNav := 0, display := initialDetailState }

/-- Events of the detail-page effect system. `navigate nav pathname` is
the effect run for navigation `nav` (its synchronous head executes and its
fetch starts); `complete nav fetched pathname` is the arrival of the fetch
started by navigation `nav`, carrying the pathname that navigation's
closure captured. -/
inductive RuntimeEvent where
  | navigate (nav : Nat) (pathname : String)
  | complete (nav : Nat) (fetched : FetchOutcome) (pathname : String)
deriving DecidableEq

/-- One step of the code's behaviour: a navigation runs the synchronous
head of `loadServer`; a completion applies the continuation
unconditionally — the source keeps no token tying a completion to the
navigation that started it, so the navigation index of a completion is
ignored. -/
def stepDetailPage (st : RuntimeState) : RuntimeEvent → RuntimeState
  | .navigate n _ =>
      { currentNav := n, display := startLoad st.display }
  | .complete _ fetched pathname =>
      { st with display := applyPathCompletion fetched pathname st.display }

/-- Modelled from the spec: the resolver of section 4.5, which associates
each in-flight fetch with the navigation that triggered it and discards a
completion whose navigation has been superseded. This definition follows
the wording of the spec, for comparison with `stepDetailPage`, which is
the code. -/
def stepDetailPageSpec (st : RuntimeState) : RuntimeEvent → RuntimeState
  | .navigate n _ =>
      { currentNav := n, display := startLoad st.display }
  | .complete n fetched pathname =>
      if n = st.currentNav then
        { st with display := applyPathCompletion fetched pathname st.display }
      else st

/-- Run of the code's detail page over a sequence of events. -/
def runDetailPage (events : List RuntimeEvent) (st : RuntimeState) : RuntimeState :=
  events.foldl stepDetailPage st

/-- Run of the spec-modelled resolver over a sequence of events. -/
def runDetailPageSpec (events : List RuntimeEvent) (st : RuntimeState) : RuntimeState :=
  events.foldl stepDetailPageSpec st

/-! ### Concrete fixtures (descriptors of the shape of the shipped catalog) -/

/-- Sample installable descriptor. -/
def alphaServer : MCPServer :=
  { id := "alpha"
    name := "Alpha"
    description := "First sample extension"
    command := some "npx alpha"
    is_builtin := false
    link := "https://example.com/alpha"
    githubStars := 10
    installation_notes := none
    environmentVariables := [] }

/-- Sample built-in descriptor. -/
def betaServer : MCPServer :=
  { id := "beta"
    name := "Beta"
    description := "Second sample extension"
    command := none
    is_builtin := true
    link := "https://example.com/beta"
    githubStars := 3
    installation_notes := none
    environmentVariables := [] }

/-- A second descriptor deriving the same id as `alphaServer`. -/
def alphaDuplicate : MCPServer :=
  { id := "alpha"
    name := "Alpha Two"
    description := "Colliding sample extension"
    command := some "npx alpha-two"
    is_builtin := false
    link := "https://example.com/alpha-two"
    githubStars := 1
    installation_notes := none
    environmentVariables := [] }

/-- A well-formed raw catalog value, as the remote endpoint would serve
it. -/
def sampleCatalogJson : Json :=
  Json.arr [Json.obj
    [("id", Json.str "alpha"),
     ("name", Json.str "Alpha"),
     ("description", Json.str "First sample extension"),
     ("link", Json.str "https://example.com/alpha")]]

/-- A raw catalog whose only descriptor is missing the required `name`
field. -/
def malformedCatalogJson : Json :=
  Json.arr [Json.obj
    [("description", Json.str "descriptor without a name"),
     ("link", Json.str "https://example.com/nameless")]]

/-- Catalog file content that changes between the first and the second
read of one build. -/
def changingCatalogFile : Nat → List MCPServer :=
  fun k => if k = 0 then [alphaServer] else [betaServer]

/-- The collection fetched by the runtime resolver in the stale-fetch
scenario. -/
def runtimeCatalog : List MCPServer :=
  [alphaServer, betaServer]

/-- An event sequence with two navigations whose fetches complete out of
order: the fetch of navigation 2 arrives first, the stale fetch of
navigation 1 arrives last. -/
def staleTrace : List RuntimeEvent :=
  [RuntimeEvent.navigate 1 (detailRoutePath alphaServer),
   RuntimeEvent.navigate 2 (detailRoutePath betaServer),
   RuntimeEvent.complete 2 (FetchOutcome.ok runtimeCatalog) (detailRoutePath betaServer),
   RuntimeEvent.complete 1 (FetchOutcome.ok runtimeCatalog) (detailRoutePath alphaServer)]

/-! ## Helper lemmas -/

/-- Extensionality for export directories. -/
theorem ExportDir.ext {d e : ExportDir} (hc : d.contents = e.contents)
    (hn : d.fileNames = e.fileNames) : d = e := by
  cases d; cases e; cases hc; cases hn; rfl

/-- Linear search returns the first element satisfying the predicate. -/
theorem find?_first {α : Type} (p : α → Bool) :
    ∀ (pre : List α) (s : α) (post : List α),
      (∀ t ∈ pre, p t = false) → p s = true →
      (pre ++ s :: post).find? p = some s := by
  intro pre
  induction pre with
  | nil => intro s post _ hs; simp [List.find?, hs]
  | cons t rest ih =>
      intro s post hpre hs
      have ht : p t = false := hpre t (List.mem_cons_self t rest)
      simp only [List.cons_append, List.find?, ht]
      exact ih s post (fun u hu => hpre u (List.mem_cons_of_mem t hu)) hs

/-- A file already present keeps membership under any further write. -/
theorem mem_fileNames_writeFileTo {d : ExportDir} {q : String} (p c : String)
    (h : q ∈ d.fileNames) : q ∈ (writeFileTo d p c).fileNames := by
  simp only [writeFileTo]
  split
  · exact h
  · exact List.mem_append_left _ h

/-- Writing a file makes its name present. -/
theorem self_mem_fileNames_writeFileTo (d : ExportDir) (p c : String) :
    p ∈ (writeFileTo d p c).fileNames := by
  simp only [writeFileTo]
  split
  · assumption
  · exact List.mem_append_right _ (List.mem_singleton_self p)

/-- Contents after the write sequence of `postBuild`: the last write to a
path wins, untouched paths are preserved. -/
theorem contents_postBuildWrites (extensions : List MCPServer) :
    ∀ (d : ExportDir) (q : String),
      (postBuildWrites extensions d).contents q =
        match lastExportedContent extensions q with
        | some c => some c
        | none => d.contents q := by
  induction extensions with
  | nil => intro d q; rfl
  | cons e rest ih =>
      intro d q
      show (postBuildWrites rest (writeFileTo d (exportFileName e) (serializeServer e))).contents q = _
      rw [ih]
      cases h : lastExportedContent rest q with
      | some c => simp [lastExportedContent, h]
      | none =>
          show (if q = exportFileName e then some (serializeServer e) else d.contents q) = _
          simp only [lastExportedContent, h]
          by_cases hq : exportFileName e = q
          · subst hq; simp
          · rw [if_neg (fun hqe : q = exportFileName e => hq hqe.symm), if_neg hq]

/-- Membership in `fileNames` is preserved by the whole write sequence. -/
theorem mem_fileNames_postBuildWrites (extensions : List MCPServer) :
    ∀ (d : ExportDir) (q : String), q ∈ d.fileNames →
      q ∈ (postBuildWrites extensions d).fileNames := by
  induction extensions with
  | nil => intro d q h; exact h
  | cons e rest ih =>
      intro d q h
      exact ih _ q (mem_fileNames_writeFileTo _ _ h)

/-- Every exported extension has its file present after the write
sequence. -/
theorem exportFileName_mem_postBuildWrites (extensions : List MCPServer) :
    ∀ (d : ExportDir) (e : MCPServer), e ∈ extensions →
      exportFileName e ∈ (postBuildWrites extensions d).fileNames := by
  induction extensions with
  | nil => intro d e h; cases h
  | cons f rest ih =>
      intro d e h
      rcases List.mem_cons.mp h with h | h
      · subst h
        exact mem_fileNames_postBuildWrites rest _ _
          (self_mem_fileNames_writeFileTo d _ _)
      · exact ih _ e h

/-- When every target file already exists, the write sequence leaves the
file listing unchanged (every write is an overwrite). -/
theorem fileNames_postBuildWrites_stable (extensions : List MCPServer) :
    ∀ (d : ExportDir), (∀ e ∈ extensions, exportFileName e ∈ d.fileNames) →
      (postBuildWrites extensions d).fileNames = d.fileNames := by
  induction extensions with
  | nil => intro d _; rfl
  | cons e rest ih =>
      intro d h
      have he : exportFileName e ∈ d.fileNames := h e (List.mem_cons_self e rest)
      have hw : (writeFileTo d (exportFileName e) (serializeServer e)).fileNames = d.fileNames := by
        simp [writeFileTo, he]
      show (postBuildWrites rest (writeFileTo d (exportFileName e) (serializeServer e))).fileNames = _
      rw [ih _ (fun f hf => by rw [hw]; exact h f (List.mem_cons_of_mem e hf)), hw]

/-- When no target file exists yet and the target names are distinct, the
write sequence appends exactly the export file names, in catalog order. -/
theorem fileNames_postBuildWrites_fresh (extensions : List MCPServer) :
    ∀ (d : ExportDir), (∀ e ∈ extensions, exportFileName e ∉ d.fileNames) →
      (extensions.map exportFileName).Nodup →
      (postBuildWrites extensions d).fileNames =
        d.fileNames ++ extensions.map exportFileName := by
  induction extensions with
  | nil => intro d _ _; simp [postBuildWrites]
  | cons e rest ih =>
      intro d hfresh hnodup
      have he : exportFileName e ∉ d.fileNames := hfresh e (List.mem_cons_self e rest)
      have hw : (writeFileTo d (exportFileName e) (serializeServer e)).fileNames =
          d.fileNames ++ [exportFileName e] := by
        simp [writeFileTo, he]
      have hnodup' := hnodup
      rw [List.map_cons, List.nodup_cons] at hnodup'
      show (postBuildWrites rest (writeFileTo d (exportFileName e) (serializeServer e))).fileNames = _
      rw [ih _ ?_ hnodup'.2, hw]
      · simp [List.map_cons, List.append_assoc]
      · intro f hf
        rw [hw]
        intro hmem
        rcases List.mem_append.mp hmem with hmem | hmem
        · exact hfresh f (List.mem_cons_of_mem e hf) hmem
        · have : exportFileName f = exportFileName e := List.mem_singleton.mp hmem
          exact hnodup'.1 (this ▸ List.mem_map_of_mem exportFileName hf)

/-- Appending the fixed `.json` suffix is injective on file stems. -/
theorem append_json_injective {a b : String} (h : a ++ ".json" = b ++ ".json") :
    a = b := by
  have hd : a.data ++ ".json".data = b.data ++ ".json".data := by
    have hc := congrArg String.data h
    simpa [String.data_append] using hc
  have hab : a.data = b.data := List.append_cancel_right hd
  exact congrArg String.mk hab

/-- Distinct ids give distinct export file names. -/
theorem nodup_exportFileNames {catalog : List MCPServer}
    (h : (catalog.map MCPServer.id).Nodup) :
    (catalog.map exportFileName).Nodup := by
  have hmap : catalog.map exportFileName =
      (catalog.map MCPServer.id).map (fun s => s ++ ".json") := by
    simp [List.map_map, exportFileName, Function.comp]
  rw [hmap]
  exact h.map (fun a b hab => append_json_injective hab)

/-! ## Claim theorems -/

/-- C7: running the static export twice on the same unchanged catalog
snapshot is idempotent: the second run leaves the output directory —
file count and byte contents — exactly as the first left it; existing
files for the same id are overwritten with the same reproducible
serialization. -/
theorem export_idempotent (extensions : List MCPServer) (d : ExportDir) :
    postBuildWrites extensions (postBuildWrites extensions d) =
      postBuildWrites extensions d := by
  apply ExportDir.ext
  · funext q
    rw [contents_postBuildWrites, contents_postBuildWrites]
    cases h : lastExportedContent extensions q with
    | some c => rfl
    | none => rfl
  · exact fileNames_postBuildWrites_stable extensions _
      (fun e he => exportFileName_mem_postBuildWrites extensions d e he)

/-- C2: for a catalog of N well-formed descriptors with distinct ids,
`contentLoaded` registers exactly N detail routes, each keyed by its
descriptor's id, the route set of the build is those N plus the one
listing route, and the static export writes exactly N files. -/
theorem route_and_file_counts (catalog : List MCPServer)
    (h : (catalog.map MCPServer.id).Nodup) :
    (contentLoadedRoutes catalog).length = catalog.length ∧
    (contentLoadedRoutes catalog).map Route.path = catalog.map detailRoutePath ∧
    (allBuildRoutes catalog).length = catalog.length + 1 ∧
    (postBuildWrites catalog emptyExportDir).fileNames.length = catalog.length := by
  refine ⟨List.length_map _ _, ?_, ?_, ?_⟩
  · simp [contentLoadedRoutes, detailRoute, List.map_map, Function.comp]
  · simp [allBuildRoutes, contentLoadedRoutes]
  · rw [fileNames_postBuildWrites_fresh catalog emptyExportDir
        (fun e _ hmem => by cases hmem) (nodup_exportFileNames h)]
    simp [emptyExportDir]

/-- C2 witness: a concrete two-descriptor catalog with distinct ids gives
two detail routes, three routes in total, and two exported files. -/
theorem route_and_file_counts_witness :
    ([alphaServer, betaServer].map MCPServer.id).Nodup ∧
    (contentLoadedRoutes [alphaServer, betaServer]).length = 2 ∧
    (allBuildRoutes [alphaServer, betaServer]).length = 3 ∧
    (postBuildWrites [alphaServer, betaServer] emptyExportDir).fileNames.length = 2 := by
  have h : ([alphaServer, betaServer].map MCPServer.id).Nodup := by decide
  obtain ⟨h1, _, h3, h4⟩ := route_and_file_counts [alphaServer, betaServer] h
  exact ⟨h, h1, h3, h4⟩

/-- C1 counterexample: when the catalog file changes between the two
reads of one build, the routes are generated for the first snapshot (the
detail route for `alpha`) while the exported static files come from the
second snapshot (only `beta.json`; no `alpha.json` is exported), and the
catalog is fetched twice, not once. -/
theorem catalog_refetched_counterexample :
    (runBuild changingCatalogFile).fetchCount = 2 ∧
    (runBuild changingCatalogFile).routes = [detailRoute alphaServer] ∧
    (runBuild changingCatalogFile).exported.fileNames = [exportFileName betaServer] ∧
    (runBuild changingCatalogFile).exported.contents (exportFileName alphaServer) = none := by
  refine ⟨rfl, rfl, rfl, ?_⟩
  decide

/-- C1 amended: the catalog file is read twice per build — once in
`loadContent`, and that first read alone determines the data files and
routes, and once more in `postBuild`, and that second read alone
determines the exported static files; only when the file is unchanged
between the reads do the exported files derive from the `loadContent`
snapshot. -/
theorem build_views_from_two_reads (fileAtTime : Nat → List MCPServer) :
    (runBuild fileAtTime).fetchCount = 2 ∧
    (runBuild fileAtTime).dataFiles = contentLoadedData (fileAtTime 0) ∧
    (runBuild fileAtTime).routes = contentLoadedRoutes (fileAtTime 0) ∧
    (runBuild fileAtTime).exported = postBuildWrites (fileAtTime 1) emptyExportDir ∧
    (fileAtTime 1 = fileAtTime 0 →
      (runBuild fileAtTime).exported = postBuildWrites (fileAtTime 0) emptyExportDir) := by
  refine ⟨rfl, rfl, rfl, rfl, fun h => ?_⟩
  show postBuildWrites (fileAtTime 1) emptyExportDir = _
  rw [h]

/-- C1 amended witness: on a catalog file that does not change between
the two reads, the exported files derive from the `loadContent`
snapshot. -/
theorem build_views_from_two_reads_witness :
    ((fun _ : Nat => [alphaServer]) 1 = (fun _ : Nat => [alphaServer]) 0) ∧
    (runBuild (fun _ => [alphaServer])).exported =
      postBuildWrites ((fun _ : Nat => [alphaServer]) 0) emptyExportDir :=
  ⟨rfl, (build_views_from_two_reads (fun _ => [alphaServer])).2.2.2.2 rfl⟩

/-- C3 counterexample: a raw catalog whose only descriptor lacks the
required `name` field is returned whole by the fetch, with no error of
any kind — normalization of the batch does not fail. -/
theorem malformed_descriptor_passes_counterexample :
    fetchMCPServers (LocalSnapshot.parsed malformedCatalogJson) =
      Except.ok malformedCatalogJson := rfl

/-- C3 amended: the pipeline performs no per-descriptor validation. Every
successfully parsed raw catalog is returned unchanged and whole —
descriptors missing `name`, `description` or `link` included, nothing is
dropped — and the only failure causes of the fetch are the file read
error and the JSON parse error; no schema-violation failure exists. -/
theorem fetch_returns_batch_unvalidated (j : Json) :
    fetchMCPServers (LocalSnapshot.parsed j) = Except.ok j ∧
    ∀ e : FetchError, e = FetchError.fileReadError ∨ e = FetchError.jsonParseError := by
  refine ⟨rfl, fun e => ?_⟩
  cases e
  · exact Or.inl rfl
  · exact Or.inr rfl

/-- C4 counterexample: on a concrete catalog with two descriptors sharing
the id `alpha`, the build raises no error: `contentLoaded` registers two
routes with the identical path, and `postBuild` writes a single file
whose bytes are the serialization of the later duplicate — the later
duplicate silently overwrites the earlier one's output file. -/
theorem duplicate_id_silent_overwrite_counterexample :
    (contentLoadedRoutes [alphaServer, alphaDuplicate]).length = 2 ∧
    (detailRoute alphaDuplicate).path = (detailRoute alphaServer).path ∧
    (postBuildWrites [alphaServer, alphaDuplicate] emptyExportDir).fileNames =
      [exportFileName alphaServer] ∧
    (postBuildWrites [alphaServer, alphaDuplicate] emptyExportDir).contents
      (exportFileName alphaServer) = some (serializeServer alphaDuplicate) := by
  exact ⟨rfl, rfl, rfl, rfl⟩

/-- C4 amended: two descriptors deriving the same id cause no failure of
any kind: both detail routes are registered (with the identical path),
and the static export writes one file for that id whose content is the
serialization of the later duplicate — the later duplicate silently
overwrites the earlier one's output file. -/
theorem duplicate_id_overwrites (e1 e2 : MCPServer) (h : e1.id = e2.id) :
    (contentLoadedRoutes [e1, e2]).length = 2 ∧
    (detailRoute e2).path = (detailRoute e1).path ∧
    (postBuildWrites [e1, e2] emptyExportDir).fileNames = [exportFileName e1] ∧
    (postBuildWrites [e1, e2] emptyExportDir).contents (exportFileName e1) =
      some (serializeServer e2) := by
  have hfn : exportFileName e2 = exportFileName e1 := by
    simp [exportFileName, h]
  refine ⟨rfl, ?_, ?_, ?_⟩
  · simp [detailRoute, detailRoutePath, h]
  · show (writeFileTo (writeFileTo emptyExportDir (exportFileName e1) (serializeServer e1))
      (exportFileName e2) (serializeServer e2)).fileNames = _
    rw [hfn]
    simp [writeFileTo, emptyExportDir]
  · show (writeFileTo (writeFileTo emptyExportDir (exportFileName e1) (serializeServer e1))
      (exportFileName e2) (serializeServer e2)).contents (exportFileName e1) = _
    rw [hfn]
    simp [writeFileTo]

/-- C4 amended witness: the amended behaviour at the concrete colliding
pair. -/
theorem duplicate_id_overwrites_witness :
    alphaServer.id = alphaDuplicate.id ∧
    (postBuildWrites [alphaServer, alphaDuplicate] emptyExportDir).contents
      (exportFileName alphaServer) = some (serializeServer alphaDuplicate) :=
  ⟨rfl, (duplicate_id_overwrites alphaServer alphaDuplicate rfl).2.2.2⟩

/-- C8 counterexample: with the pinned local snapshot absent and the
canonical remote endpoint healthy, the claim predicts a successful fetch
of the remote catalog, but `fetchMCPServers` fails with the rethrown
file read error — the fetcher never falls back to a remote endpoint. -/
theorem no_remote_fallback_counterexample :
    fetchMCPServers LocalSnapshot.absent = Except.error FetchError.fileReadError ∧
    specCatalogFetch LocalSnapshot.absent (Except.ok sampleCatalogJson) =
      Except.ok sampleCatalogJson ∧
    (Except.error FetchError.fileReadError : Except FetchError Json) ≠
      Except.ok sampleCatalogJson :=
  ⟨rfl, rfl, fun h => Except.noConfusion h⟩

/-- C8 amended: the Catalog Fetcher reads only the pinned local snapshot
`static/servers.json`. It returns the parsed descriptor sequence when the
file is present and parses, and fails with the rethrown read error when
the file is unreachable and with the rethrown parse error when its
content is not JSON; no remote endpoint is consulted. -/
theorem fetch_local_snapshot_only (snap : LocalSnapshot) :
    (∀ j, snap = LocalSnapshot.parsed j →
      fetchMCPServers snap = Except.ok j) ∧
    (snap = LocalSnapshot.absent →
      fetchMCPServers snap = Except.error FetchError.fileReadError) ∧
    (∀ s, snap = LocalSnapshot.notJson s →
      fetchMCPServers snap = Except.error FetchError.jsonParseError) := by
  refine ⟨fun j hj => ?_, fun h => ?_, fun s hs => ?_⟩
  · rw [hj]; rfl
  · rw [h]; rfl
  · rw [hs]; rfl

/-- C8 amended witness: the amended behaviour at a present, parsed
snapshot. -/
theorem fetch_local_snapshot_only_witness :
    (LocalSnapshot.parsed sampleCatalogJson = LocalSnapshot.parsed sampleCatalogJson) ∧
    fetchMCPServers (LocalSnapshot.parsed sampleCatalogJson) =
      Except.ok sampleCatalogJson :=
  ⟨rfl, (fetch_local_snapshot_only (LocalSnapshot.parsed sampleCatalogJson)).1
    sampleCatalogJson rfl⟩

/-- C5: for every fetched collection and lookup key, the runtime resolver
is total: when a descriptor with the key is present it resolves to a
matching descriptor of the collection; when absent it yields the
representable "Server not found" outcome (leaving the previously shown
server untouched), and that outcome is distinguishable from the fetch
failure outcome "Failed to load server details". -/
theorem runtime_lookup_outcomes (servers : List MCPServer) (key pathname : String)
    (st : DetailState) (hpath : lastPathSegment pathname = key) :
    ((∃ s ∈ servers, s.id = key) →
      ∃ s ∈ servers, s.id = key ∧
        (loadServerPath (FetchOutcome.ok servers) pathname st).server = some s) ∧
    ((∀ s ∈ servers, s.id ≠ key) →
      (loadServerPath (FetchOutcome.ok servers) pathname st).error = some "Server not found" ∧
      (loadServerPath (FetchOutcome.ok servers) pathname st).server = st.server) ∧
    (loadServerPath FetchOutcome.failed pathname st).error =
      some "Failed to load server details" ∧
    (some "Server not found" : Option String) ≠ some "Failed to load server details" := by
  subst hpath
  refine ⟨?_, ?_, rfl, by decide⟩
  · rintro ⟨s, hs, hid⟩
    cases hfind : servers.find? (fun t => t.id == lastPathSegment pathname) with
    | none =>
        exfalso
        have hne := List.find?_eq_none.mp hfind s hs
        simp [hid] at hne
    | some t =>
        refine ⟨t, List.mem_of_find?_eq_some hfind, ?_, ?_⟩
        · have hbeq := List.find?_some hfind
          simpa using hbeq
        · simp [loadServerPath, applyPathCompletion, hfind]
  · intro hnone
    have hfind : servers.find? (fun t => t.id == lastPathSegment pathname) = none := by
      apply List.find?_eq_none.mpr
      intro t ht
      simp [hnone t ht]
    constructor <;> simp [loadServerPath, applyPathCompletion, startLoad, hfind]

/-- C5 witness: on a concrete collection, the key `beta` extracted from
its detail path resolves to a present descriptor with that id. -/
theorem runtime_lookup_outcomes_witness :
    lastPathSegment "/extensions/detail/beta" = "beta" ∧
    (∃ s ∈ [alphaServer, betaServer], s.id = "beta" ∧
      (loadServerPath (FetchOutcome.ok [alphaServer, betaServer])
        "/extensions/detail/beta" initialDetailState).server = some s) :=
  ⟨rfl, (runtime_lookup_outcomes [alphaServer, betaServer] "beta"
      "/extensions/detail/beta" initialDetailState rfl).1
    ⟨betaServer, by decide, rfl⟩⟩

/-- C9: the path-segment variant and the query-parameter variant resolve
through the same lookup rule: handed the same id key, they resolve to the
same descriptor, and one reports its not-found outcome exactly when the
other does. -/
theorem path_query_same_lookup (servers : List MCPServer) (key pathname : String)
    (st : DetailState) (hpath : lastPathSegment pathname = key) (hne : key ≠ "") :
    (loadServerPath (FetchOutcome.ok servers) pathname st).server =
      (loadServerQuery (FetchOutcome.ok servers) (some key) st).server ∧
    ((loadServerPath (FetchOutcome.ok servers) pathname st).error =
        some "Server not found" ↔
      (loadServerQuery (FetchOutcome.ok servers) (some key) st).error =
        some "Extension not found") := by
  subst hpath
  simp only [loadServerPath, loadServerQuery, applyPathCompletion, applyQueryCompletion,
    if_neg hne]
  cases hfind : servers.find? (fun t => t.id == lastPathSegment pathname) with
  | some s => simp [startLoad]
  | none => simp

/-- C9 witness: both variants resolve the concrete key `alpha` to the same
descriptor. -/
theorem path_query_same_lookup_witness :
    lastPathSegment "/extensions/detail/alpha" = "alpha" ∧ ("alpha" : String) ≠ "" ∧
    (loadServerPath (FetchOutcome.ok [alphaServer, betaServer])
        "/extensions/detail/alpha" initialDetailState).server =
      (loadServerQuery (FetchOutcome.ok [alphaServer, betaServer])
        (some "alpha") initialDetailState).server :=
  ⟨rfl, by decide,
    (path_query_same_lookup [alphaServer, betaServer] "alpha"
      "/extensions/detail/alpha" initialDetailState rfl (by decide)).1⟩

/-- C10: when the fetched collection contains several descriptors with
the same id, both runtime resolver variants deterministically return the
first matching descriptor in catalog order, for every collection split
around that first match and every key. -/
theorem runtime_lookup_first_match (pre post : List MCPServer) (s : MCPServer)
    (key pathname : String) (st : DetailState)
    (hpath : lastPathSegment pathname = key) (hne : key ≠ "")
    (hpre : ∀ t ∈ pre, t.id ≠ key) (hs : s.id = key) :
    (loadServerPath (FetchOutcome.ok (pre ++ s :: post)) pathname st).server = some s ∧
    (loadServerQuery (FetchOutcome.ok (pre ++ s :: post)) (some key) st).server = some s := by
  subst hpath
  have hfind : (pre ++ s :: post).find? (fun t => t.id == lastPathSegment pathname) = some s :=
    find?_first _ pre s post (fun t ht => by simp [hpre t ht]) (by simp [hs])
  constructor
  · simp [loadServerPath, applyPathCompletion, hfind]
  · simp [loadServerQuery, applyQueryCompletion, if_neg hne, hfind]

/-- C10 witness: with two descriptors of id `alpha` in the collection,
the resolver returns the earlier one, not the later duplicate. -/
theorem runtime_lookup_first_match_witness :
    (∀ t ∈ [betaServer], t.id ≠ "alpha") ∧ alphaServer.id = "alpha" ∧
    (loadServerPath (FetchOutcome.ok ([betaServer] ++ alphaServer :: [alphaDuplicate]))
        "/extensions/detail/alpha" initialDetailState).server = some alphaServer :=
  ⟨by decide, rfl,
    (runtime_lookup_first_match [betaServer] [alphaDuplicate] alphaServer "alpha"
      "/extensions/detail/alpha" initialDetailState rfl (by decide)
      (by decide) rfl).1⟩

/-- C6 (code bug): in the event sequence `staleTrace` — navigate to
`alpha`, navigate to `beta`, the fetch of the `beta` navigation
completes, then the stale fetch of the superseded `alpha` navigation
arrives — the code applies the stale completion unconditionally and ends
up displaying `alpha` although the current navigation is 2 (`beta`),
whose fetch had already displayed `beta`; the spec-modelled resolver that
discards superseded completions ends up displaying `beta`. -/
theorem stale_fetch_overwrites_newer_navigation :
    (runDetailPage staleTrace initialRuntimeState).currentNav = 2 ∧
    (runDetailPage staleTrace initialRuntimeState).display.server = some alphaServer ∧
    (runDetailPageSpec staleTrace initialRuntimeState).display.server = some betaServer ∧
    alphaServer ≠ betaServer := by
  refine ⟨rfl, ?_, ?_, by decide⟩ <;> rfl

end GooseExtensions
